import Mathlib

/-!
Verification of the multihash codec (`src/lib.rs`): a self-describing digest
envelope `[tag, digestLength, digestBytes...]` with an algorithm registry,
an `encode` path (hash and assemble, trusted by construction) and a
`from_slice` / `from_bytes` validation path.

Bytes are modelled as `Nat` (values 0..255 on the wire); fallible Rust
functions returning `Result` are modelled by explicit result inductives
with an extra `panic` constructor standing for Rust process termination
(index out of bounds, `expect` failure).  The digest routines themselves
(sha1 / sha2 / tiny_keccak crates) are external collaborators of the core:
`encode` is parameterised over the routine family; SHA-256 is additionally
implemented concretely (FIPS 180-4) to check the spec's concrete vector.
-/

/-- Modelled from the spec: the algorithm identifier enumeration of
`hashes.rs`, which is part of this repository but not under `src/`.
The eleven implemented algorithms are the frozen registry list of spec
section 4.1; `Blake2b` and `Blake2s` model the "additional identifiers
... enumerated (e.g. for future BLAKE/SHA-256d variants) with no encoder
backing" that the `_ => Err(EncodeError::UnsupportedType)` arm of
`match_encoder` in `src/lib.rs` requires to exist. -/
inductive Hash where
  | SHA1
  | SHA2256
  | SHA2512
  | SHA3224
  | SHA3256
  | SHA3384
  | SHA3512
  | Keccak224
  | Keccak256
  | Keccak384
  | Keccak512
  | Blake2b
  | Blake2s
deriving DecidableEq

/-- Modelled from the spec: the numeric tag code of each algorithm
(spec section 4.1 frozen list; Blake tag codes 0x40/0x41 for the
unimplemented enumerated variants). -/
def Hash.code : Hash → Nat
  | .SHA1 => 0x11
  | .SHA2256 => 0x12
  | .SHA2512 => 0x13
  | .SHA3512 => 0x14
  | .SHA3384 => 0x15
  | .SHA3256 => 0x16
  | .SHA3224 => 0x17
  | .Keccak224 => 0x1A
  | .Keccak256 => 0x1B
  | .Keccak384 => 0x1C
  | .Keccak512 => 0x1D
  | .Blake2b => 0x40
  | .Blake2s => 0x41

/-- Modelled from the spec: the fixed digest length in bytes of each
algorithm (spec section 4.1 frozen list). -/
def Hash.size : Hash → Nat
  | .SHA1 => 20
  | .SHA2256 => 32
  | .SHA2512 => 64
  | .SHA3512 => 64
  | .SHA3384 => 48
  | .SHA3256 => 32
  | .SHA3224 => 28
  | .Keccak224 => 28
  | .Keccak256 => 32
  | .Keccak384 => 48
  | .Keccak512 => 64
  | .Blake2b => 64
  | .Blake2s => 32

/-- Modelled from the spec: the reverse registry lookup
`descriptorForTag` (`Hash::from_code` in `hashes.rs`): partial, absent
for any tag not in the table. -/
def Hash.from_code (code : Nat) : Option Hash :=
  if code = 0x11 then some .SHA1
  else if code = 0x12 then some .SHA2256
  else if code = 0x13 then some .SHA2512
  else if code = 0x14 then some .SHA3512
  else if code = 0x15 then some .SHA3384
  else if code = 0x16 then some .SHA3256
  else if code = 0x17 then some .SHA3224
  else if code = 0x1A then some .Keccak224
  else if code = 0x1B then some .Keccak256
  else if code = 0x1C then some .Keccak384
  else if code = 0x1D then some .Keccak512
  else if code = 0x40 then some .Blake2b
  else if code = 0x41 then some .Blake2s
  else none

/-- True exactly for the eleven algorithms with an arm in the
`match_encoder!` dispatch of `encode` (`src/lib.rs` lines 78-90);
false for the enumerated variants caught by its `_` arm. -/
def Hash.implemented : Hash → Bool
  | .SHA1 => true
  | .SHA2256 => true
  | .SHA2512 => true
  | .SHA3224 => true
  | .SHA3256 => true
  | .SHA3384 => true
  | .SHA3512 => true
  | .Keccak224 => true
  | .Keccak256 => true
  | .Keccak384 => true
  | .Keccak512 => true
  | .Blake2b => false
  | .Blake2s => false

/-- Modelled from the spec: `DecodeError` of `errors.rs` (not under
`src/`): spec section 7 taxonomy for the borrowing decode path. -/
inductive DecodeError where
  | UnknownCode
  | BadInputLength
deriving DecidableEq

/-- Modelled from the spec: `DecodeOwnedError` of `errors.rs` (not under
`src/`): wraps a `DecodeError` together with the rejected byte buffer. -/
structure DecodeOwnedError where
  error : DecodeError
  data : List Nat
deriving DecidableEq

/-- Modelled from the spec: `EncodeError` of `errors.rs` (not under
`src/`): `UnsupportedType` is the only encode-time failure. -/
inductive EncodeError where
  | UnsupportedType
deriving DecidableEq

/-- `Multihash` (`src/lib.rs` line 97): the owning envelope, a private
byte buffer. -/
structure Multihash where
  bytes : List Nat
deriving DecidableEq

/-- `MultihashRef` (`src/lib.rs` line 155): the borrowing view.  In the
embedding it carries the byte sequence it aliases. -/
structure MultihashRef where
  bytes : List Nat
deriving DecidableEq

/-- Result of `MultihashRef::from_slice`; `panic` models Rust process
termination by an out-of-bounds index. -/
inductive SliceResult where
  | ok (r : MultihashRef)
  | err (e : DecodeError)
  | panic
deriving DecidableEq

/-- Result of `Multihash::from_bytes`. -/
inductive OwnedResult where
  | ok (m : Multihash)
  | err (e : DecodeOwnedError)
  | panic
deriving DecidableEq

/-- Result of `encode`; `panic` models the `copy_from_slice` length
mismatch abort (the unchecked collaborator trust boundary of spec
section 6). -/
inductive EncodeResult where
  | ok (m : Multihash)
  | err (e : EncodeError)
  | panic
deriving DecidableEq

/-- `MultihashRef::from_slice` (`src/lib.rs` lines 161-189), faithfully:
empty input is rejected first; then the source evaluates
`input[0] >= 128 || input[1] >= 128` with short-circuit, so on a
one-byte slice whose byte is < 128 the read of `input[1]` is an
out-of-bounds panic (the `[b0]` arm); with at least two bytes both
reads are safe and the disjunction is taken as written; then the tag
is resolved, and the total length and declared length are checked
against the registry size. -/
def MultihashRef.from_slice (input : List Nat) : SliceResult :=
  match input with
  | [] => .err .BadInputLength
  | [b0] =>
    if 128 ≤ b0 then .err .BadInputLength else .panic
  | b0 :: b1 :: tail =>
    if 128 ≤ b0 ∨ 128 ≤ b1 then .err .BadInputLength
    else
      match Hash.from_code b0 with
      | none => .err .UnknownCode
      | some alg =>
        if (b0 :: b1 :: tail).length ≠ alg.size + 2 then .err .BadInputLength
        else if b1 ≠ alg.size then .err .BadInputLength
        else .ok ⟨b0 :: b1 :: tail⟩

/-- `Multihash::from_bytes` (`src/lib.rs` lines 104-113): validates via
`MultihashRef::from_slice`; on error, wraps it with the original
buffer; a panic in `from_slice` propagates. -/
def Multihash.from_bytes (bytes : List Nat) : OwnedResult :=
  match MultihashRef.from_slice bytes with
  | .err e => .err ⟨e, bytes⟩
  | .panic => .panic
  | .ok _ => .ok ⟨bytes⟩

/-- `Multihash::into_bytes` (`src/lib.rs` line 117). -/
def Multihash.into_bytes (m : Multihash) : List Nat := m.bytes

/-- `Multihash::as_bytes` (`src/lib.rs` line 123). -/
def Multihash.as_bytes (m : Multihash) : List Nat := m.bytes

/-- `Multihash::as_ref` (`src/lib.rs` line 129). -/
def Multihash.as_ref (m : Multihash) : MultihashRef := ⟨m.bytes⟩

/-- `MultihashRef::algorithm` (`src/lib.rs` line 193):
`Hash::from_code(self.bytes[0]).expect(..)`; the `Option` return models
the `expect`, `none` standing for the abort branch. -/
def MultihashRef.algorithm (r : MultihashRef) : Option Hash :=
  Hash.from_code r.bytes[0]!

/-- `MultihashRef::digest` (`src/lib.rs` line 199): the slice after the
2-byte header. -/
def MultihashRef.digest (r : MultihashRef) : List Nat := r.bytes.drop 2

/-- `MultihashRef::to_owned` (`src/lib.rs` line 207). -/
def MultihashRef.to_owned (r : MultihashRef) : Multihash := ⟨r.bytes⟩

/-- `MultihashRef::as_bytes` (`src/lib.rs` line 215). -/
def MultihashRef.as_bytes (r : MultihashRef) : List Nat := r.bytes

/-- `Multihash::algorithm` (`src/lib.rs` line 135). -/
def Multihash.algorithm (m : Multihash) : Option Hash := m.as_ref.algorithm

/-- `Multihash::digest` (`src/lib.rs` line 141). -/
def Multihash.digest (m : Multihash) : List Nat := m.as_ref.digest

/-- `impl PartialEq<MultihashRef> for Multihash` (`src/lib.rs` lines
146-151): byte-sequence comparison. -/
def Multihash.eq_ref (m : Multihash) (r : MultihashRef) : Bool :=
  m.bytes == r.bytes

/-- `impl PartialEq<Multihash> for MultihashRef` (`src/lib.rs` lines
220-225): byte-sequence comparison. -/
def MultihashRef.eq_owned (r : MultihashRef) (m : Multihash) : Bool :=
  r.bytes == m.bytes

/-- `encode` (`src/lib.rs` lines 71-93), parameterised over the family
of collaborator digest routines: resolve size and code, dispatch via
`match_encoder!` (an unimplemented variant hits the `_` arm and
returns `UnsupportedType` before hashing), then `copy_from_slice` the
routine's output into the trailing bytes of the
`[code, size, 0, ..., 0]` buffer — which aborts when the routine's
output length differs from the registry size (the `panic` branch). -/
def encode (hasher : Hash → List Nat → List Nat) (hash : Hash)
    (input : List Nat) : EncodeResult :=
  if hash.implemented then
    if (hasher hash input).length = hash.size then
      .ok ⟨hash.code :: hash.size :: hasher hash input⟩
    else .panic
  else .err .UnsupportedType

/-! SHA-256 (FIPS 180-4), the digest routine the `sha2` crate supplies
for `Hash::SHA2256`.  Hashing is an external collaborator of the core;
it is implemented here concretely so the spec's concrete test vector
can be checked.  Words are `Nat` reduced mod `2 ^ 32`. -/

def w32mod : Nat := 4294967296

/-- Addition of 32-bit words. -/
def wadd (a b : Nat) : Nat := (a + b) % w32mod

/-- Right rotation of a 32-bit word by `k` (for `n < 2 ^ 32` the two
summands occupy disjoint bit ranges). -/
def rotr (k n : Nat) : Nat := n / 2 ^ k + n % 2 ^ k * 2 ^ (32 - k)

/-- Logical right shift of a 32-bit word. -/
def shr (k n : Nat) : Nat := n / 2 ^ k

/-- The `Ch` function of FIPS 180-4. -/
def sha256ch (x y z : Nat) : Nat := (x &&& y) ^^^ ((x ^^^ 0xFFFFFFFF) &&& z)

/-- The `Maj` function of FIPS 180-4. -/
def sha256maj (x y z : Nat) : Nat := (x &&& y) ^^^ (x &&& z) ^^^ (y &&& z)

/-- Big sigma-0. -/
def bsig0 (x : Nat) : Nat := rotr 2 x ^^^ rotr 13 x ^^^ rotr 22 x

/-- Big sigma-1. -/
def bsig1 (x : Nat) : Nat := rotr 6 x ^^^ rotr 11 x ^^^ rotr 25 x

/-- Small sigma-0. -/
def ssig0 (x : Nat) : Nat := rotr 7 x ^^^ rotr 18 x ^^^ shr 3 x

/-- Small sigma-1. -/
def ssig1 (x : Nat) : Nat := rotr 17 x ^^^ rotr 19 x ^^^ shr 10 x

/-- The 64 round constants of SHA-256 (decimal). -/
def sha256K : List Nat :=
  [1116352408, 1899447441, 3049323471, 3921009573, 961987163,
   1508970993, 2453635748, 2870763221, 3624381080, 310598401,
   607225278, 1426881987, 1925078388, 2162078206, 2614888103,
   3248222580, 3835390401, 4022224774, 264347078, 604807628,
   770255983, 1249150122, 1555081692, 1996064986, 2554220882,
   2821834349, 2952996808, 3210313671, 3336571891, 3584528711,
   113926993, 338241895, 666307205, 773529912, 1294757372,
   1396182291, 1695183700, 1986661051, 2177026350, 2456956037,
   2730485921, 2820302411, 3259730800, 3345764771, 3516065817,
   3600352804, 4094571909, 275423344, 430227734, 506948616,
   659060556, 883997877, 958139571, 1322822218, 1537002063,
   1747873779, 1955562222, 2024104815, 2227730452, 2361852424,
   2428436474, 2756734187, 3204031479, 3329325298]

/-- Big-endian 8-byte encoding of a 64-bit value. -/
def be8 (n : Nat) : List Nat :=
  [n / 2 ^ 56 % 256, n / 2 ^ 48 % 256, n / 2 ^ 40 % 256, n / 2 ^ 32 % 256,
   n / 2 ^ 24 % 256, n / 2 ^ 16 % 256, n / 2 ^ 8 % 256, n % 256]

/-- Big-endian 4-byte encoding of a 32-bit word. -/
def be4 (n : Nat) : List Nat :=
  [n / 2 ^ 24 % 256, n / 2 ^ 16 % 256, n / 2 ^ 8 % 256, n % 256]

/-- SHA-256 padding: `0x80`, zeros to 56 mod 64, then the bit length
as 8 big-endian bytes. -/
def sha256pad (msg : List Nat) : List Nat :=
  msg ++ [128] ++ List.replicate ((119 - msg.length % 64) % 64) 0
    ++ be8 (8 * msg.length)

/-- Big-endian 32-bit words of a byte list (fuel-driven structural
recursion; called with fuel at least the list length). -/
def toWords : Nat → List Nat → List Nat
  | _, [] => []
  | 0, _ => []
  | fuel + 1, a :: b :: c :: d :: rest =>
    (a * 16777216 + b * 65536 + c * 256 + d) :: toWords fuel rest
  | _ + 1, _ => []

/-- Split into 64-byte blocks (fuel-driven structural recursion). -/
def chunks64 : Nat → List Nat → List (List Nat)
  | _, [] => []
  | 0, _ => []
  | fuel + 1, l => l.take 64 :: chunks64 fuel (l.drop 64)

/-- Message-schedule extension: append `fuel` further words, each from
the words 2, 7, 15 and 16 positions back. -/
def schedule : Nat → List Nat → List Nat
  | 0, w => w
  | fuel + 1, w =>
    let n := w.length
    schedule fuel (w ++ [wadd (wadd (ssig1 (w.getD (n - 2) 0)) (w.getD (n - 7) 0))
      (wadd (ssig0 (w.getD (n - 15) 0)) (w.getD (n - 16) 0))])

/-- The eight 32-bit working variables of SHA-256. -/
structure Sha256State where
  a : Nat
  b : Nat
  c : Nat
  d : Nat
  e : Nat
  f : Nat
  g : Nat
  h : Nat

/-- One SHA-256 round on round constant and schedule word `kw`. -/
def sha256round (s : Sha256State) (kw : Nat × Nat) : Sha256State :=
  let t1 := wadd (wadd (wadd s.h (bsig1 s.e)) (wadd (sha256ch s.e s.f s.g) kw.1)) kw.2
  let t2 := wadd (bsig0 s.a) (sha256maj s.a s.b s.c)
  ⟨wadd t1 t2, s.a, s.b, s.c, wadd s.d t1, s.e, s.f, s.g⟩

/-- Compress one 64-byte block into the chaining state. -/
def sha256compress (hs : Sha256State) (block : List Nat) : Sha256State :=
  let ws := schedule 48 (toWords block.length block)
  let fin := (sha256K.zip ws).foldl sha256round hs
  ⟨wadd hs.a fin.a, wadd hs.b fin.b, wadd hs.c fin.c, wadd hs.d fin.d,
   wadd hs.e fin.e, wadd hs.f fin.f, wadd hs.g fin.g, wadd hs.h fin.h⟩

/-- The SHA-256 initial chaining state (decimal). -/
def sha256init : Sha256State :=
  ⟨1779033703, 3144134277, 1013904242, 2773480762,
   1359893119, 2600822924, 528734635, 1541459225⟩

/-- SHA-256 of a byte list: pad, compress each block, serialise the
final state big-endian. -/
def sha256 (msg : List Nat) : List Nat :=
  let padded := sha256pad msg
  let hs := (chunks64 padded.length padded).foldl sha256compress sha256init
  be4 hs.a ++ be4 hs.b ++ be4 hs.c ++ be4 hs.d
    ++ be4 hs.e ++ be4 hs.f ++ be4 hs.g ++ be4 hs.h

/-- A concrete instantiation of the collaborator digest-routine family:
the SHA2-256 slot computes real SHA-256 (the routine the `sha2` crate
binds there); every other slot returns an arbitrary fixed digest of
the registered length (no claim inspects those values, only their
length, which the collaborator contract of spec section 6 fixes). -/
def rawHash : Hash → List Nat → List Nat
  | .SHA2256, input => sha256 input
  | h, _ => List.replicate h.size 0

/-- The ASCII bytes of `"hello world"`. -/
def helloWorldBytes : List Nat :=
  [104, 101, 108, 108, 111, 32, 119, 111, 114, 108, 100]

/-- The envelope invariant of spec section 8: byte length is
2 + digest length, the declared length byte equals the digest length,
and the tag re-resolves (so `algorithm()` never reaches its abort
branch) to an algorithm whose registry size is the digest length. -/
def validEnvelope (r : MultihashRef) : Prop :=
  r.as_bytes.length = 2 + r.digest.length ∧
  r.as_bytes[1]! = r.digest.length ∧
  ∃ a : Hash, r.algorithm = some a ∧
    Hash.from_code r.as_bytes[0]! = some a ∧ a.size = r.digest.length

theorem Hash.code_lt (a : Hash) : a.code < 128 := by
  cases a <;> decide

theorem Hash.size_lt (a : Hash) : a.size < 128 := by
  cases a <;> decide

theorem Hash.from_code_code (a : Hash) : Hash.from_code a.code = some a := by
  cases a <;> rfl

theorem sha256_length (msg : List Nat) : (sha256 msg).length = 32 := by
  simp [sha256, be4]

theorem rawHash_length (a : Hash) (input : List Nat) :
    (rawHash a input).length = a.size := by
  cases a <;> simp [rawHash, sha256_length, Hash.size]

theorem from_slice_ok_bytes (input : List Nat) (r : MultihashRef)
    (h : MultihashRef.from_slice input = .ok r) : r.bytes = input := by
  rcases input with _ | ⟨b0, _ | ⟨b1, tail⟩⟩
  · simp [MultihashRef.from_slice] at h
  · simp only [MultihashRef.from_slice] at h
    split at h <;> simp_all
  · simp only [MultihashRef.from_slice] at h
    split at h
    · simp_all
    · rcases hcode : Hash.from_code b0 with _ | alg <;> simp only [hcode] at h
      · simp_all
      · split at h
        · simp_all
        · split at h
          · simp_all
          · simp only [SliceResult.ok.injEq] at h
            rw [← h]

theorem from_slice_ok_iff (b0 b1 : Nat) (tail : List Nat) (r : MultihashRef) :
    MultihashRef.from_slice (b0 :: b1 :: tail) = .ok r ↔
      b0 < 128 ∧ b1 < 128 ∧
      ∃ alg : Hash, Hash.from_code b0 = some alg ∧ tail.length = alg.size ∧
        b1 = alg.size ∧ r = ⟨b0 :: b1 :: tail⟩ := by
  constructor
  · intro h
    simp only [MultihashRef.from_slice] at h
    by_cases hb : 128 ≤ b0 ∨ 128 ≤ b1
    · rw [if_pos hb] at h
      exact SliceResult.noConfusion h
    · rw [if_neg hb] at h
      push_neg at hb
      rcases hcode : Hash.from_code b0 with _ | alg
      · simp only [hcode] at h
        exact SliceResult.noConfusion h
      · simp only [hcode] at h
        by_cases hlen : (b0 :: b1 :: tail).length ≠ alg.size + 2
        · rw [if_pos hlen] at h
          exact SliceResult.noConfusion h
        · rw [if_neg hlen] at h
          by_cases hdecl : b1 ≠ alg.size
          · rw [if_pos hdecl] at h
            exact SliceResult.noConfusion h
          · rw [if_neg hdecl] at h
            push_neg at hlen hdecl
            refine ⟨hb.1, hb.2, alg, rfl, ?_, hdecl, (SliceResult.ok.inj h).symm⟩
            simp only [List.length_cons] at hlen
            omega
  · rintro ⟨hb0, hb1, alg, hcode, hlen, hdecl, rfl⟩
    simp only [MultihashRef.from_slice]
    rw [if_neg (by omega)]
    simp only [hcode]
    rw [if_neg (by simp [hlen]), if_neg (by omega)]

/-- C4: for every input of length at least 2 with byte 0 at least 128
or byte 1 at least 128, `from_slice` fails with `BadInputLength`
before the registry lookup, so such inputs never yield `UnknownCode`. -/
theorem from_slice_high_bit_rejected (b0 b1 : Nat) (tail : List Nat)
    (h : 128 ≤ b0 ∨ 128 ≤ b1) :
    MultihashRef.from_slice (b0 :: b1 :: tail) = .err .BadInputLength := by
  simp only [MultihashRef.from_slice]
  rw [if_pos h]

theorem from_slice_high_bit_rejected_witness :
    MultihashRef.from_slice [128, 0] = .err .BadInputLength :=
  from_slice_high_bit_rejected 128 0 [] (Or.inl (by decide))

/-- C3: the claim says every input of length below 2 is rejected with
`BadInputLength` and the decode path never terminates the process.
The code checks only `is_empty` before evaluating
`input[0] >= 128 || input[1] >= 128`, so on a one-byte input whose
byte is below 128 the short-circuit reaches `input[1]` and panics
with an out-of-bounds index: the empty input and one-byte inputs with
high bit set are rejected as claimed, but `[0x11]` aborts. -/
theorem from_slice_short_input_behavior :
    MultihashRef.from_slice [] = .err .BadInputLength ∧
    MultihashRef.from_slice [0x80] = .err .BadInputLength ∧
    MultihashRef.from_slice [0x11] = .panic := by
  decide

/-- C8: an owning `Multihash` and a borrowing `MultihashRef` compare
equal exactly when their full byte sequences are identical, the mixed
comparison is symmetric, and an owning envelope equals the view over
its own bytes in both directions. -/
theorem mixed_equality_bytes_symm (m : Multihash) (r : MultihashRef) :
    (m.eq_ref r = true ↔ m.bytes = r.bytes) ∧
    m.eq_ref r = r.eq_owned m ∧
    m.eq_ref m.as_ref = true ∧
    m.as_ref.eq_owned m = true := by
  refine ⟨?_, ?_, ?_, ?_⟩
  · simp [Multihash.eq_ref]
  · by_cases h : m.bytes = r.bytes
    · simp [Multihash.eq_ref, MultihashRef.eq_owned, h]
    · simp only [Multihash.eq_ref, MultihashRef.eq_owned]
      rw [Bool.eq_iff_iff]
      simp only [beq_iff_eq]
      exact eq_comm
  · simp [Multihash.eq_ref, Multihash.as_ref]
  · simp [MultihashRef.eq_owned, Multihash.as_ref]

/-- C10: decoding never normalises or copies content: a successful
`from_bytes` followed by `into_bytes` returns the original vector,
and a successful `from_slice` yields a view whose `as_bytes` is
exactly the input. -/
theorem decode_preserves_bytes :
    (∀ b m, Multihash.from_bytes b = .ok m → m.into_bytes = b) ∧
    (∀ input r, MultihashRef.from_slice input = .ok r → r.as_bytes = input) := by
  constructor
  · intro b m h
    unfold Multihash.from_bytes at h
    rcases hfs : MultihashRef.from_slice b with r' | e | _
    · rw [hfs] at h
      simp only [OwnedResult.ok.injEq] at h
      rw [← h]
      rfl
    · simp [hfs] at h
    · simp [hfs] at h
  · intro input r h
    simpa [MultihashRef.as_bytes] using from_slice_ok_bytes input r h

theorem decode_preserves_bytes_witness :
    Multihash.into_bytes ⟨17 :: 20 :: List.replicate 20 0⟩ =
      17 :: 20 :: List.replicate 20 0 :=
  decode_preserves_bytes.1 (17 :: 20 :: List.replicate 20 0)
    ⟨17 :: 20 :: List.replicate 20 0⟩ (by decide)

/-- C5: for inputs of length at least 2 whose first two bytes are both
below 128, `from_slice` fails with `UnknownCode` exactly when byte 0
does not resolve in the registry; when it resolves to `alg`, decoding
fails with `BadInputLength` exactly when the total length differs
from `alg.size + 2` or byte 1 differs from `alg.size`, and succeeds
otherwise. -/
theorem from_slice_known_code_cases (b0 b1 : Nat) (tail : List Nat)
    (hb0 : b0 < 128) (hb1 : b1 < 128) :
    (Hash.from_code b0 = none →
      MultihashRef.from_slice (b0 :: b1 :: tail) = .err .UnknownCode) ∧
    (∀ alg : Hash, Hash.from_code b0 = some alg →
      (((b0 :: b1 :: tail).length ≠ alg.size + 2 ∨ b1 ≠ alg.size) →
        MultihashRef.from_slice (b0 :: b1 :: tail) = .err .BadInputLength) ∧
      ((b0 :: b1 :: tail).length = alg.size + 2 → b1 = alg.size →
        MultihashRef.from_slice (b0 :: b1 :: tail) =
          .ok ⟨b0 :: b1 :: tail⟩)) := by
  have hno : ¬(128 ≤ b0 ∨ 128 ≤ b1) := by omega
  constructor
  · intro hcode
    simp only [MultihashRef.from_slice]
    rw [if_neg hno]
    simp [hcode]
  · intro alg hcode
    constructor
    · intro hbad
      simp only [MultihashRef.from_slice]
      rw [if_neg hno]
      simp only [hcode]
      by_cases hlen : (b0 :: b1 :: tail).length ≠ alg.size + 2
      · rw [if_pos hlen]
      · rw [if_neg hlen]
        rcases hbad with hbad | hbad
        · exact absurd hbad hlen
        · rw [if_pos hbad]
    · intro hlen hdecl
      simp only [MultihashRef.from_slice]
      rw [if_neg hno]
      simp only [hcode]
      rw [if_neg (not_not_intro hlen), if_neg (not_not_intro hdecl)]

theorem from_slice_known_code_cases_witness :
    MultihashRef.from_slice [0x7F, 0x00] = .err .UnknownCode ∧
    MultihashRef.from_slice (0x12 :: 0x20 :: List.replicate 31 0) =
      .err .BadInputLength :=
  ⟨(from_slice_known_code_cases 0x7F 0x00 [] (by decide) (by decide)).1
      (by decide),
   ((from_slice_known_code_cases 0x12 0x20 (List.replicate 31 0) (by decide)
        (by decide)).2 Hash.SHA2256 (by decide)).1 (Or.inl (by decide))⟩

/-- C6: `from_bytes` succeeds exactly when `from_slice` succeeds on the
same bytes; a returned decode failure wraps exactly the error
`from_slice` returns on those bytes together with the original byte
vector unchanged. -/
theorem from_bytes_mirrors_from_slice (b : List Nat) :
    ((∃ m, Multihash.from_bytes b = .ok m) ↔
      (∃ r, MultihashRef.from_slice b = .ok r)) ∧
    (∀ d, Multihash.from_bytes b = .err d →
      d.data = b ∧ MultihashRef.from_slice b = .err d.error) ∧
    (∀ e, MultihashRef.from_slice b = .err e →
      Multihash.from_bytes b = .err ⟨e, b⟩) := by
  unfold Multihash.from_bytes
  rcases hfs : MultihashRef.from_slice b with r' | e' | _ <;> simp [hfs]

theorem from_bytes_mirrors_from_slice_witness :
    DecodeOwnedError.data ⟨.BadInputLength, ([] : List Nat)⟩ = [] ∧
    MultihashRef.from_slice [] =
      .err (DecodeOwnedError.error ⟨.BadInputLength, ([] : List Nat)⟩) :=
  (from_bytes_mirrors_from_slice []).2.1 ⟨.BadInputLength, []⟩ (by decide)

/-- C7: `encode` fails with `UnsupportedType` exactly for the
enumerated identifiers with no bound digest routine (the modelled
`Blake2b`/`Blake2s`); it succeeds for every algorithm with an arm in
`match_encoder!` (under the collaborator length contract); and
`UnsupportedType` is the only value the encode-error type has, a type
disjoint from the decode errors. -/
theorem encode_unsupported_iff (hasher : Hash → List Nat → List Nat)
    (hLen : ∀ a input, (hasher a input).length = a.size)
    (a : Hash) (input : List Nat) :
    (encode hasher a input = .err .UnsupportedType ↔
      (a = .Blake2b ∨ a = .Blake2s)) ∧
    (a.implemented = true → ∃ m, encode hasher a input = .ok m) ∧
    (∀ e : EncodeError, e = .UnsupportedType) := by
  refine ⟨?_, ?_, ?_⟩
  · cases a <;> simp [encode, Hash.implemented, hLen]
  · intro ha
    refine ⟨⟨a.code :: a.size :: hasher a input⟩, ?_⟩
    simp [encode, ha, hLen]
  · intro e
    cases e
    rfl

theorem encode_unsupported_iff_witness :
    encode rawHash .Blake2b [] = .err .UnsupportedType :=
  (encode_unsupported_iff rawHash rawHash_length .Blake2b []).1.mpr
    (Or.inl rfl)

/-- C1: for every algorithm with a bound digest routine and every
input, `encode` succeeds (under the collaborator contract that each
routine's output length matches its registry size), `from_slice` on
the resulting byte representation succeeds, and the decoded view's
algorithm and digest are the original algorithm and the raw routine
output on that input. -/
theorem encode_decode_roundtrip (hasher : Hash → List Nat → List Nat)
    (hLen : ∀ a input, (hasher a input).length = a.size)
    (a : Hash) (ha : a.implemented = true) (input : List Nat) :
    ∃ m : Multihash, encode hasher a input = .ok m ∧
      ∃ r : MultihashRef, MultihashRef.from_slice m.into_bytes = .ok r ∧
        r.algorithm = some a ∧ r.digest = hasher a input := by
  refine ⟨⟨a.code :: a.size :: hasher a input⟩, ?_,
    ⟨a.code :: a.size :: hasher a input⟩, ?_, ?_, ?_⟩
  · simp [encode, ha, hLen]
  · show MultihashRef.from_slice (a.code :: a.size :: hasher a input) = _
    rw [from_slice_ok_iff]
    exact ⟨Hash.code_lt a, Hash.size_lt a, a, Hash.from_code_code a,
      hLen a input, rfl, rfl⟩
  · simp [MultihashRef.algorithm, Hash.from_code_code]
  · simp [MultihashRef.digest]

theorem encode_decode_roundtrip_witness :
    ∃ m : Multihash, encode rawHash .SHA1 [1, 2, 3] = .ok m ∧
      ∃ r : MultihashRef, MultihashRef.from_slice m.into_bytes = .ok r ∧
        r.algorithm = some .SHA1 ∧ r.digest = rawHash .SHA1 [1, 2, 3] :=
  encode_decode_roundtrip rawHash rawHash_length .SHA1 rfl [1, 2, 3]

set_option maxRecDepth 8000 in
/-- C2: `encode(SHA2256, "hello world")` succeeds and its byte
representation is exactly the 34-byte sequence of the spec's concrete
vector (computed here with the FIPS 180-4 SHA-256 implementation). -/
theorem encode_hello_world_vector :
    ∃ m, encode rawHash .SHA2256 helloWorldBytes = .ok m ∧
      m.into_bytes =
        [18, 32, 185, 77, 39, 185, 147, 77, 62, 8, 165, 46, 82, 215, 218, 125,
         171, 250, 196, 132, 239, 227, 122, 83, 128, 238, 144, 136, 247, 172,
         226, 239, 205, 233] := by
  refine ⟨⟨[18, 32, 185, 77, 39, 185, 147, 77, 62, 8, 165, 46, 82, 215, 218,
    125, 171, 250, 196, 132, 239, 227, 122, 83, 128, 238, 144, 136, 247, 172,
    226, 239, 205, 233]⟩, ?_, rfl⟩
  decide

theorem valid_of_from_slice (input : List Nat) (r : MultihashRef)
    (h : MultihashRef.from_slice input = .ok r) : validEnvelope r := by
  rcases input with _ | ⟨b0, _ | ⟨b1, tail⟩⟩
  · simp [MultihashRef.from_slice] at h
  · simp only [MultihashRef.from_slice] at h
    split at h <;> simp_all
  · rw [from_slice_ok_iff] at h
    obtain ⟨hb0, hb1, alg, hcode, hlen, hdecl, rfl⟩ := h
    refine ⟨?_, ?_, alg, ?_, ?_, ?_⟩
    · simp only [MultihashRef.as_bytes, MultihashRef.digest, List.length_cons,
        List.drop_succ_cons, List.drop_zero]
      omega
    · simp [MultihashRef.as_bytes, MultihashRef.digest, hdecl, hlen]
    · simp [MultihashRef.algorithm, hcode]
    · simp [MultihashRef.as_bytes, hcode]
    · simp [MultihashRef.digest, hlen]

/-- C9: every construction path (`from_slice`, `from_bytes`, `encode`,
`to_owned`) yields an envelope satisfying the length and registry
invariant, so the internal re-resolution in the `algorithm()`
accessor never reaches its abort branch on such values. -/
theorem envelope_invariant_all_paths :
    (∀ input r, MultihashRef.from_slice input = .ok r → validEnvelope r) ∧
    (∀ b m, Multihash.from_bytes b = .ok m → validEnvelope m.as_ref) ∧
    (∀ (hasher : Hash → List Nat → List Nat) (a : Hash) (input : List Nat) m,
      encode hasher a input = .ok m → validEnvelope m.as_ref) ∧
    (∀ input r, MultihashRef.from_slice input = .ok r →
      validEnvelope r.to_owned.as_ref) := by
  refine ⟨fun input r h => valid_of_from_slice input r h, ?_, ?_, ?_⟩
  · intro b m h
    unfold Multihash.from_bytes at h
    rcases hfs : MultihashRef.from_slice b with r' | e' | _ <;> rw [hfs] at h
    · have hb : r'.bytes = b := from_slice_ok_bytes b r' hfs
      simp only [OwnedResult.ok.injEq] at h
      subst h
      have hre : r' = MultihashRef.mk b := by
        cases r'
        simpa using hb
      show validEnvelope (MultihashRef.mk b)
      exact hre ▸ valid_of_from_slice b r' hfs
    · exact absurd h (by simp)
    · exact absurd h (by simp)
  · intro hasher a input m h
    unfold encode at h
    by_cases himp : a.implemented
    · rw [if_pos himp] at h
      by_cases hlen : (hasher a input).length = a.size
      · rw [if_pos hlen] at h
        simp only [EncodeResult.ok.injEq] at h
        subst h
        refine ⟨?_, ?_, a, ?_, ?_, ?_⟩
        · simp only [Multihash.as_ref, MultihashRef.as_bytes,
            MultihashRef.digest, List.length_cons, List.drop_succ_cons,
            List.drop_zero]
          omega
        · simp [Multihash.as_ref, MultihashRef.as_bytes, MultihashRef.digest,
            hlen]
        · simp [Multihash.as_ref, MultihashRef.algorithm, Hash.from_code_code]
        · simp [Multihash.as_ref, MultihashRef.as_bytes, Hash.from_code_code]
        · simp [Multihash.as_ref, MultihashRef.digest, hlen]
      · rw [if_neg hlen] at h
        exact absurd h (by simp)
    · rw [if_neg himp] at h
      exact absurd h (by simp)
  · intro input r h
    have hv := valid_of_from_slice input r h
    have hre : r.to_owned.as_ref = r := by
      cases r
      rfl
    rw [hre]
    exact hv

theorem envelope_invariant_all_paths_witness :
    validEnvelope ⟨18 :: 32 :: List.replicate 32 0⟩ :=
  envelope_invariant_all_paths.1 (18 :: 32 :: List.replicate 32 0)
    ⟨18 :: 32 :: List.replicate 32 0⟩ (by decide)
